import Mathlib

/-!
Shallow embedding of the Go service in `src/main.go`: a read-through /
write-invalidate product cache in front of an in-memory product map
(`fakeProductDB`), backed by a Redis-like key-value store.

The cache backend is modelled as an association list from string keys to a
stored value together with an optional absolute expiration instant
(`none` = persistent key, no TTL).  Time is an explicit `Int` parameter
`now`; a key is live when its expiration lies strictly in the future.
Entries whose expiration has passed are hidden from `rget` (the backend
never serves expired data) but may linger in the state until deleted —
this models the backend-reaping lag that `cleanStaleProductKeys` (the
sweeper) is written to compensate for, and whose `TTL` query then reports
a non-positive remaining time.

Serialization (`json.Marshal` / `json.Unmarshal`) is modelled by a sum
type of storable values: a serialized `Product`, an integer (the hit
counter), or an arbitrary string; `unmarshalProduct` succeeds exactly on
serialized products, so "present but undeserializable" cache entries are
representable.

Cache-backend failure on the read path (a failed GET, as in a Redis
outage) is modelled by the `cacheOk : Bool` parameter of
`getProductHandler`: when false, the GET yields nothing (the handler code
treats any error as a miss) and the subsequent SETs have no effect (their
errors are ignored by the code).
-/

namespace GoRedisCache

/-- `Product` struct from `src/main.go` (fields ID, Name, Price). -/
structure Product where
  id : Int
  name : String
  price : Int
deriving DecidableEq, Repr

/-- Values storable in the cache backend: a serialized `Product` (what
`json.Marshal` of a product produces), an integer counter, or some other
string payload (undeserializable as a product). -/
inductive Val where
  | vProd (p : Product)
  | vInt (n : Int)
  | vStr (s : String)
deriving DecidableEq, Repr

/-- `json.Unmarshal` into a `Product`: succeeds exactly on serialized
products. -/
def unmarshalProduct : Val → Option Product
  | .vProd p => some p
  | _ => none

/-- State of the Redis backend: entries `(key, value, expireAt?)`;
`expireAt = none` means the key is persistent (no TTL ever set). -/
structure RedisState where
  entries : List (String × Val × Option Int)
deriving DecidableEq, Repr

/-- Raw lookup of a key's stored value and expiration (first match). -/
def RedisState.lookup (st : RedisState) (k : String) : Option (Val × Option Int) :=
  (st.entries.find? (fun x => x.1 == k)).map (fun x => x.2)

/-- Redis `GET` at time `now`: expired entries are invisible. -/
def rget (st : RedisState) (now : Int) (k : String) : Option Val :=
  match st.lookup k with
  | some (v, none) => some v
  | some (v, some t) => if now < t then some v else none
  | none => none

/-- Internal: store `(v, e)` under `k`, replacing any previous entry. -/
def setEntry (st : RedisState) (k : String) (v : Val) (e : Option Int) : RedisState :=
  ⟨(k, v, e) :: st.entries.filter (fun x => !(x.1 == k))⟩

/-- Redis `SET key v EX ttl` issued at time `now`. -/
def rset (st : RedisState) (k : String) (v : Val) (ttl now : Int) : RedisState :=
  setEntry st k v (some (now + ttl))

/-- Redis `DEL key`: removes the entry; deleting an absent key is a no-op. -/
def rdel (st : RedisState) (k : String) : RedisState :=
  ⟨st.entries.filter (fun x => !(x.1 == k))⟩

/-- Redis `INCR key` at time `now`: creates the key at 1 with NO expiration
when it is absent (or expired), increments preserving the expiration when
it holds an integer, and errors on a non-integer value — the handler
ignores the error, so that case is modelled as value 0 with the state
unchanged. -/
def rincr (st : RedisState) (now : Int) (k : String) : RedisState × Int :=
  match rget st now k with
  | some (.vInt n) => (setEntry st k (.vInt (n + 1)) ((st.lookup k).bind (fun x => x.2)), n + 1)
  | some _ => (st, 0)
  | none => (setEntry st k (.vInt 1) none, 1)

/-- Redis `EXPIRE key ttl` at time `now`: sets the expiration of a live
key; a no-op on an absent or expired key. -/
def rexpire (st : RedisState) (now : Int) (k : String) (ttl : Int) : RedisState :=
  match rget st now k with
  | some v => setEntry st k v (some (now + ttl))
  | none => st

/-- Redis `TTL key` at time `now`: -2 when absent, -1 when the key has no
expiration, otherwise the remaining time (non-positive when the entry has
logically expired but not yet been reaped). -/
def rttl (st : RedisState) (now : Int) (k : String) : Int :=
  match st.lookup k with
  | none => -2
  | some (_, none) => -1
  | some (_, some t) => t - now

/-- `pfx` is a prefix of `s` (Go `MATCH pfx*` semantics of `SCAN`). -/
def strStarts (s pfx : String) : Bool :=
  decide (pfx.data <+: s.data)

/-- One full `SCAN ... MATCH "product:*"` pass: all keys currently in the
keyspace (including lingering expired ones) matching the prefix. -/
def scanProductKeys (st : RedisState) : List String :=
  (st.entries.map (fun x => x.1)).filter (fun k => strStarts k "product:")

/-- TTL of 30 seconds (`redisProductTTL` in `src/main.go`). -/
def redisProductTTL : Int := 30

/-- `popularThreshold` in `src/main.go`: min hits to refresh TTL. -/
def popularThreshold : Int := 2

/-- `redisProductKey`: `fmt.Sprintf("%s%d", "product:", id)`. -/
def redisProductKey (id : Int) : String := "product:" ++ toString id

/-- `redisProductHitsKey`: `fmt.Sprintf("%s%d:hits", "product:", id)`. -/
def redisProductHitsKey (id : Int) : String := "product:" ++ toString id ++ ":hits"

/-- The authoritative store (`fakeProductDB`): a map id ↦ product. -/
def DB : Type := Int → Option Product

/-- Outcome of `GET /product/{id}` (after a well-formed numeric id). -/
inductive GetResult where
  | ok (p : Product)
  | notFound
deriving DecidableEq, Repr

/-- `getProductHandler` from `src/main.go`: cache-aside read.  On a GET
whose value unmarshals, increment the hit counter and, when the count
reaches `popularThreshold`, refresh both TTLs; otherwise fall back to the
DB, 404 when absent, else fill cache and counter with the full TTL.
`cacheOk = false` models a failing cache backend (GET errors — treated as
a miss — and SETs fail silently). -/
def getProductHandler (db : DB) (st : RedisState) (now : Int) (id : Int)
    (cacheOk : Bool) : GetResult × RedisState :=
  match (if cacheOk then rget st now (redisProductKey id) else none).bind unmarshalProduct with
  | some product =>
      let res := rincr st now (redisProductHitsKey id)
      let st2 :=
        if popularThreshold ≤ res.2 then
          rexpire (rexpire res.1 now (redisProductKey id) redisProductTTL) now
            (redisProductHitsKey id) redisProductTTL
        else res.1
      (.ok product, st2)
  | none =>
      match db id with
      | none => (.notFound, st)
      | some dbProduct =>
          (.ok dbProduct,
            if cacheOk then
              rset (rset st (redisProductKey id) (.vProd dbProduct) redisProductTTL now)
                (redisProductHitsKey id) (.vInt 1) redisProductTTL now
            else st)

/-- Externally visible side effects of the write path, in program order. -/
inductive Effect where
  | dbReplace (id : Int) (p : Product)
  | cacheDel (k : String)
deriving DecidableEq, Repr

/-- Outcome of `PUT /product/{id}` (after a well-formed numeric id and a
successfully decoded JSON body). -/
inductive UpdateResult where
  | noContent
  | badRequest (msg : String)
deriving DecidableEq, Repr

/-- `updateProductHandler` from `src/main.go`: reject a path/body id
mismatch; otherwise upsert the record into the DB, then delete the cache
entry key and the hit-counter key.  Also returns the list of effects it
issued, in program order. -/
def updateProductHandler (db : DB) (st : RedisState) (id : Int) (input : Product) :
    UpdateResult × DB × RedisState × List Effect :=
  if input.id = id then
    let newP : Product := ⟨id, input.name, input.price⟩
    let db2 : DB := fun k => if k = id then some newP else db k
    let st2 := rdel (rdel st (redisProductKey id)) (redisProductHitsKey id)
    (.noContent, db2, st2,
      [.dbReplace id newP, .cacheDel (redisProductKey id),
        .cacheDel (redisProductHitsKey id)])
  else
    (.badRequest "ID in path and body mismatch", db, st, [])

/-- One full pass of `cleanStaleProductKeys` at time `now`: scan the
`product:*` keys, and delete each whose TTL query reports a non-positive
remaining time or no expiration (`ttl <= 0 || ttl == -1` in the code). -/
def cleanStaleProductKeys (st : RedisState) (now : Int) : RedisState :=
  (scanProductKeys st).foldl
    (fun s k => if rttl s now k ≤ 0 ∨ rttl s now k = -1 then rdel s k else s) st

/-- A keyspace with no duplicate keys (holds in every reachable state:
every primitive write replaces the previous entry for its key). -/
def keysNodup (st : RedisState) : Prop :=
  (st.entries.map (fun x => x.1)).Nodup

instance (st : RedisState) : Decidable (keysNodup st) := by
  unfold keysNodup; infer_instance

/-- Is this effect a cache deletion? -/
def isCacheDel : Effect → Bool
  | .cacheDel _ => true
  | _ => false

/-- Is this effect an authoritative-store replace? -/
def isDbReplace : Effect → Bool
  | .dbReplace _ _ => true
  | _ => false

/-- No store replace occurs at or after the first cache deletion: the
authoritative write strictly precedes every cache deletion in the trace. -/
def dbWriteBeforeDels (tr : List Effect) : Bool :=
  (tr.dropWhile (fun e => !(isCacheDel e))).all (fun e => !(isDbReplace e))

/-- The initial `fakeProductDB` contents from `src/main.go`. -/
def dbSample : DB := fun k =>
  if k = 1 then some ⟨1, "Apple", 100⟩
  else if k = 2 then some ⟨2, "Banana", 50⟩
  else if k = 3 then some ⟨3, "Cherry", 200⟩
  else none

/-- The read-path consistency invariant for identifier `id`: whatever
product the cache stores under `id`'s entry key agrees with the
authoritative store (spec §3: a cache entry must never be observably
inconsistent with the last committed record).  It holds in every
reachable state: established by miss-fill, preserved by hits, restored
by the update path's invalidation, and vacuous on the empty cache. -/
def entryConsistent (db : DB) (st : RedisState) (id : Int) : Prop :=
  ∀ q e, st.lookup (redisProductKey id) = some (.vProd q, e) → db id = some q

/-- A sequence of fetches of the same `id` with no intervening update,
each given as (request time, cache backend healthy?), threading the cache
state through; returns the list of responses and the final state. -/
def fetchSeq (db : DB) (st : RedisState) (id : Int) :
    List (Int × Bool) → List GetResult × RedisState
  | [] => ([], st)
  | q :: rest =>
      let r := getProductHandler db st q.1 id q.2
      let rs := fetchSeq db r.2 id rest
      (r.1 :: rs.1, rs.2)

/-! ### Basic lemmas about the cache-backend primitives -/

theorem find?_key_filter (l : List (String × Val × Option Int)) (k k2 : String)
    (h : ¬ k2 = k) :
    (l.filter (fun x => !(x.1 == k))).find? (fun x => x.1 == k2) =
      l.find? (fun x => x.1 == k2) := by
  induction l with
  | nil => rfl
  | cons a l ih =>
      by_cases hak : a.1 = k
      · have h1 : (!(a.1 == k)) = false := by simp [hak]
        have h2 : (a.1 == k2) = false := by
          apply beq_eq_false_iff_ne.mpr
          rw [hak]
          exact fun e => h e.symm
        simp [List.filter_cons, h1, List.find?_cons, h2, ih]
      · have h1 : (!(a.1 == k)) = true := by simp [hak]
        by_cases hk2 : a.1 = k2
        · have h2 : (a.1 == k2) = true := by simp [hk2]
          simp [List.filter_cons, h1, List.find?_cons, h2]
        · have h2 : (a.1 == k2) = false := by simp [hk2]
          simp [List.filter_cons, h1, List.find?_cons, h2, ih]

theorem lookup_setEntry (st : RedisState) (k : String) (v : Val) (e : Option Int)
    (k2 : String) :
    (setEntry st k v e).lookup k2 = if k2 = k then some (v, e) else st.lookup k2 := by
  by_cases h : k2 = k
  · subst h; simp [setEntry, RedisState.lookup, List.find?_cons]
  · have h2 : ¬ k = k2 := fun e => h e.symm
    simp [setEntry, RedisState.lookup, List.find?_cons, h, h2, find?_key_filter _ _ _ h]

theorem lookup_rdel (st : RedisState) (k k2 : String) :
    (rdel st k).lookup k2 = if k2 = k then none else st.lookup k2 := by
  by_cases h : k2 = k
  · subst h
    simp only [rdel, RedisState.lookup, if_pos rfl]
    rw [List.find?_eq_none.2]
    · rfl
    · intro x hx
      simp only [List.mem_filter] at hx
      simpa using hx.2
  · simp [rdel, RedisState.lookup, h, find?_key_filter _ _ _ h]

theorem lookup_not_mem (st : RedisState) (k : String)
    (h : ¬ k ∈ st.entries.map (fun x => x.1)) : st.lookup k = none := by
  simp only [RedisState.lookup]
  rw [List.find?_eq_none.2]
  · rfl
  · intro x hx hbeq
    exact h (List.mem_map.2 ⟨x, hx, by simpa using hbeq⟩)

theorem rget_rdel (st : RedisState) (now : Int) (k k2 : String) :
    rget (rdel st k) now k2 = if k2 = k then none else rget st now k2 := by
  by_cases h : k2 = k <;> simp [rget, lookup_rdel, h]

theorem rttl_rdel (st : RedisState) (now : Int) (k k2 : String) :
    rttl (rdel st k) now k2 = if k2 = k then -2 else rttl st now k2 := by
  by_cases h : k2 = k <;> simp [rttl, lookup_rdel, h]

theorem rget_setEntry_ne (st : RedisState) (k : String) (v : Val) (e : Option Int)
    (now : Int) (k2 : String) (h : ¬ k2 = k) :
    rget (setEntry st k v e) now k2 = rget st now k2 := by
  simp [rget, lookup_setEntry, h]

theorem rget_of_lookup (st : RedisState) (now : Int) (k : String) (v : Val)
    (h : rget st now k = some v) : ∃ e, st.lookup k = some (v, e) := by
  unfold rget at h
  match hl : st.lookup k with
  | none => simp [hl] at h
  | some (w, none) =>
      simp only [hl, Option.some.injEq] at h
      exact ⟨none, by rw [h]⟩
  | some (w, some t) =>
      simp only [hl] at h
      split at h
      · simp only [Option.some.injEq] at h
        exact ⟨some t, by rw [h]⟩
      · cases h

theorem key_ne_hitsKey (id : Int) : ¬ redisProductKey id = redisProductHitsKey id := by
  intro h
  have h2 : (redisProductKey id).length = (redisProductHitsKey id).length := by rw [h]
  have h5 : (":hits" : String).length = 5 := rfl
  simp only [redisProductKey, redisProductHitsKey, String.length_append, h5] at h2
  omega

theorem hitsKey_starts (id : Int) : strStarts (redisProductHitsKey id) "product:" = true := by
  simp only [strStarts, redisProductHitsKey, String.data_append, decide_eq_true_eq]
  exact List.prefix_append _ _

/-! ### Unfolding lemmas for the handlers -/

theorem rdel_absent (s : RedisState) (k : String) (habs : s.lookup k = none) :
    rdel s k = s := by
  have h1 : s.entries.find? (fun x => x.1 == k) = none := by
    simp only [RedisState.lookup, Option.map_eq_none'] at habs
    exact habs
  obtain ⟨l⟩ := s
  simp only [rdel, RedisState.mk.injEq]
  apply List.filter_eq_self.mpr
  intro x hx
  have h2 := List.find?_eq_none.1 h1 x hx
  simpa using h2

theorem getProductHandler_eq_miss (db : DB) (st : RedisState) (now id : Int) (b : Bool)
    (h : (if b then rget st now (redisProductKey id) else none).bind unmarshalProduct = none) :
    getProductHandler db st now id b =
      match db id with
      | none => (.notFound, st)
      | some p =>
          (.ok p,
            if b then
              rset (rset st (redisProductKey id) (.vProd p) redisProductTTL now)
                (redisProductHitsKey id) (.vInt 1) redisProductTTL now
            else st) := by
  unfold getProductHandler
  rw [h]

theorem getProductHandler_eq_hit (db : DB) (st : RedisState) (now id : Int) (p : Product)
    (h : rget st now (redisProductKey id) = some (.vProd p)) :
    getProductHandler db st now id true =
      (.ok p,
        if popularThreshold ≤ (rincr st now (redisProductHitsKey id)).2 then
          rexpire (rexpire (rincr st now (redisProductHitsKey id)).1 now
            (redisProductKey id) redisProductTTL) now (redisProductHitsKey id) redisProductTTL
        else (rincr st now (redisProductHitsKey id)).1) := by
  unfold getProductHandler
  rw [if_pos rfl, h]
  rfl

theorem updateProductHandler_eq_ok (db : DB) (st : RedisState) (id : Int) (input : Product)
    (h : input.id = id) :
    updateProductHandler db st id input =
      (.noContent, fun k => if k = id then some ⟨id, input.name, input.price⟩ else db k,
        rdel (rdel st (redisProductKey id)) (redisProductHitsKey id),
        [.dbReplace id ⟨id, input.name, input.price⟩, .cacheDel (redisProductKey id),
          .cacheDel (redisProductHitsKey id)]) := by
  unfold updateProductHandler
  rw [if_pos h]

theorem update_then_fetch (db : DB) (st : RedisState) (id : Int) (input : Product)
    (h : input.id = id) (now : Int) (b : Bool) :
    (getProductHandler (updateProductHandler db st id input).2.1
      (updateProductHandler db st id input).2.2.1 now id b).1 =
        .ok ⟨id, input.name, input.price⟩ := by
  rw [updateProductHandler_eq_ok db st id input h]
  have hget : rget (rdel (rdel st (redisProductKey id)) (redisProductHitsKey id)) now
      (redisProductKey id) = none := by
    rw [rget_rdel, if_neg (key_ne_hitsKey id), rget_rdel, if_pos rfl]
  have hmiss : (if b then rget (rdel (rdel st (redisProductKey id)) (redisProductHitsKey id))
      now (redisProductKey id) else none).bind unmarshalProduct = none := by
    cases b <;> simp [hget]
  rw [getProductHandler_eq_miss _ _ _ _ _ hmiss]
  simp

/-! ### The claims -/

/-- C1: for every identifier present in the authoritative store, a fetch
beginning strictly after an update commits never returns the pre-update
attributes: the update deletes the cache entry, so the next fetch misses
and returns the post-update record (here proved in the strong form: the
fetch returns exactly the post-update record, whatever the cache held
before and whether or not the cache backend is healthy). -/
theorem spec_C1 (db : DB) (st : RedisState) (id : Int) (input : Product) (now : Int)
    (b : Bool) (h : input.id = id) :
    (updateProductHandler db st id input).1 = .noContent ∧
    (getProductHandler (updateProductHandler db st id input).2.1
      (updateProductHandler db st id input).2.2.1 now id b).1 =
        .ok ⟨id, input.name, input.price⟩ := by
  constructor
  · rw [updateProductHandler_eq_ok db st id input h]
  · exact update_then_fetch db st id input h now b

theorem spec_C1_witness :
    (⟨1, "Apple", 120⟩ : Product).id = 1 ∧
    ((updateProductHandler dbSample ⟨[]⟩ 1 ⟨1, "Apple", 120⟩).1 = .noContent ∧
      (getProductHandler (updateProductHandler dbSample ⟨[]⟩ 1 ⟨1, "Apple", 120⟩).2.1
        (updateProductHandler dbSample ⟨[]⟩ 1 ⟨1, "Apple", 120⟩).2.2.1 7 1 true).1 =
          .ok ⟨1, "Apple", 120⟩) :=
  ⟨by decide, spec_C1 dbSample ⟨[]⟩ 1 ⟨1, "Apple", 120⟩ 7 true (by decide)⟩

/-- C2: on a cache miss, or a present-but-undeserializable entry (treated
identically, with no fault surfaced), the fetch queries the store: if the
id is absent it fails with not-found (state untouched); if present it
writes the serialized record under the cache key with the full TTL, sets
the hit counter to 1 with the same TTL, and returns the record. -/
theorem spec_C2 (db : DB) (st : RedisState) (now id : Int) (p : Product)
    (hmiss : (rget st now (redisProductKey id)).bind unmarshalProduct = none) :
    (db id = none → getProductHandler db st now id true = (.notFound, st)) ∧
    (db id = some p →
      (getProductHandler db st now id true).1 = .ok p ∧
      ((getProductHandler db st now id true).2).lookup (redisProductKey id) =
        some (.vProd p, some (now + redisProductTTL)) ∧
      ((getProductHandler db st now id true).2).lookup (redisProductHitsKey id) =
        some (.vInt 1, some (now + redisProductTTL))) := by
  have hm : (if true then rget st now (redisProductKey id) else none).bind unmarshalProduct
      = none := by simpa using hmiss
  have he := getProductHandler_eq_miss db st now id true hm
  constructor
  · intro hdb
    rw [he, hdb]
  · intro hdb
    rw [he, hdb]
    refine ⟨rfl, ?_, ?_⟩
    · simp [rset, lookup_setEntry, key_ne_hitsKey id]
    · simp [rset, lookup_setEntry]

theorem spec_C2_witness :
    ((rget ⟨[("product:2", .vStr "garbage", some 99)]⟩ 0 (redisProductKey 2)).bind
        unmarshalProduct = none) ∧
    ((dbSample 2 = none →
        getProductHandler dbSample ⟨[("product:2", .vStr "garbage", some 99)]⟩ 0 2 true =
          (.notFound, ⟨[("product:2", .vStr "garbage", some 99)]⟩)) ∧
      (dbSample 2 = some ⟨2, "Banana", 50⟩ →
        (getProductHandler dbSample ⟨[("product:2", .vStr "garbage", some 99)]⟩ 0 2 true).1 =
          .ok ⟨2, "Banana", 50⟩ ∧
        ((getProductHandler dbSample ⟨[("product:2", .vStr "garbage", some 99)]⟩ 0 2
            true).2).lookup (redisProductKey 2) =
          some (.vProd ⟨2, "Banana", 50⟩, some (0 + redisProductTTL)) ∧
        ((getProductHandler dbSample ⟨[("product:2", .vStr "garbage", some 99)]⟩ 0 2
            true).2).lookup (redisProductHitsKey 2) =
          some (.vInt 1, some (0 + redisProductTTL)))) :=
  ⟨by decide, spec_C2 dbSample ⟨[("product:2", .vStr "garbage", some 99)]⟩ 0 2
    ⟨2, "Banana", 50⟩ (by decide)⟩

/-- C4: within a single update, the authoritative replace is issued before
the cache deletions; before returning success the write path
unconditionally issues deletions of both the cache entry key and the
hit-counter key; and deleting an absent key is a no-op, not an error. -/
theorem spec_C4 (db : DB) (st : RedisState) (id : Int) (input : Product)
    (h : input.id = id) (s : RedisState) (k : String) (habs : s.lookup k = none) :
    (updateProductHandler db st id input).1 = .noContent ∧
    (updateProductHandler db st id input).2.2.2 =
      [.dbReplace id ⟨id, input.name, input.price⟩, .cacheDel (redisProductKey id),
        .cacheDel (redisProductHitsKey id)] ∧
    dbWriteBeforeDels (updateProductHandler db st id input).2.2.2 = true ∧
    Effect.cacheDel (redisProductKey id) ∈ (updateProductHandler db st id input).2.2.2 ∧
    Effect.cacheDel (redisProductHitsKey id) ∈ (updateProductHandler db st id input).2.2.2 ∧
    rdel s k = s := by
  rw [updateProductHandler_eq_ok db st id input h]
  refine ⟨rfl, rfl, ?_, ?_, ?_, rdel_absent s k habs⟩
  · simp [dbWriteBeforeDels, isCacheDel, isDbReplace, List.dropWhile]
  · simp
  · simp

theorem spec_C4_witness :
    (⟨2, "Pear", 42⟩ : Product).id = 2 ∧
    (RedisState.mk [("product:9", Val.vInt 3, none)]).lookup "product:2" = none ∧
    ((updateProductHandler dbSample ⟨[]⟩ 2 ⟨2, "Pear", 42⟩).1 = .noContent ∧
      (updateProductHandler dbSample ⟨[]⟩ 2 ⟨2, "Pear", 42⟩).2.2.2 =
        [.dbReplace 2 ⟨2, "Pear", 42⟩, .cacheDel (redisProductKey 2),
          .cacheDel (redisProductHitsKey 2)] ∧
      dbWriteBeforeDels (updateProductHandler dbSample ⟨[]⟩ 2 ⟨2, "Pear", 42⟩).2.2.2 = true ∧
      Effect.cacheDel (redisProductKey 2) ∈
        (updateProductHandler dbSample ⟨[]⟩ 2 ⟨2, "Pear", 42⟩).2.2.2 ∧
      Effect.cacheDel (redisProductHitsKey 2) ∈
        (updateProductHandler dbSample ⟨[]⟩ 2 ⟨2, "Pear", 42⟩).2.2.2 ∧
      rdel ⟨[("product:9", Val.vInt 3, none)]⟩ "product:2" =
        ⟨[("product:9", Val.vInt 3, none)]⟩) :=
  ⟨by decide, by decide,
    spec_C4 dbSample ⟨[]⟩ 2 ⟨2, "Pear", 42⟩ (by decide)
      ⟨[("product:9", Val.vInt 3, none)]⟩ "product:2" (by decide)⟩

/-- C6: an update whose body identifier differs from the path identifier
returns a validation (client) error and performs no state change: the
store, the cache and the effect trace are all untouched. -/
theorem spec_C6 (db : DB) (st : RedisState) (id : Int) (input : Product)
    (h : ¬ input.id = id) :
    updateProductHandler db st id input =
      (.badRequest "ID in path and body mismatch", db, st, []) := by
  unfold updateProductHandler
  rw [if_neg h]

theorem spec_C6_witness :
    ¬ (⟨3, "Cherry", 200⟩ : Product).id = 2 ∧
    updateProductHandler dbSample ⟨[("product:2", .vProd ⟨2, "Banana", 50⟩, some 30)]⟩ 2
        ⟨3, "Cherry", 200⟩ =
      (.badRequest "ID in path and body mismatch", dbSample,
        ⟨[("product:2", .vProd ⟨2, "Banana", 50⟩, some 30)]⟩, []) :=
  ⟨by decide, spec_C6 dbSample ⟨[("product:2", .vProd ⟨2, "Banana", 50⟩, some 30)]⟩ 2
    ⟨3, "Cherry", 200⟩ (by decide)⟩

/-- C9: an update for an identifier absent from the authoritative store
does not fail: it inserts a new record under the id, returns success, and
a subsequent fetch returns the newly inserted attributes (the write path
is an upsert). -/
theorem spec_C9 (db : DB) (st : RedisState) (id : Int) (input : Product) (now : Int)
    (b : Bool) ( _habs : db id = none) (h : input.id = id) :
    (updateProductHandler db st id input).1 = .noContent ∧
    (updateProductHandler db st id input).2.1 id = some ⟨id, input.name, input.price⟩ ∧
    (getProductHandler (updateProductHandler db st id input).2.1
      (updateProductHandler db st id input).2.2.1 now id b).1 =
        .ok ⟨id, input.name, input.price⟩ := by
  refine ⟨?_, ?_, update_then_fetch db st id input h now b⟩
  · rw [updateProductHandler_eq_ok db st id input h]
  · rw [updateProductHandler_eq_ok db st id input h]
    simp

theorem spec_C9_witness :
    dbSample 7 = none ∧
    (⟨7, "Mango", 77⟩ : Product).id = 7 ∧
    ((updateProductHandler dbSample ⟨[]⟩ 7 ⟨7, "Mango", 77⟩).1 = .noContent ∧
      (updateProductHandler dbSample ⟨[]⟩ 7 ⟨7, "Mango", 77⟩).2.1 7 =
        some ⟨7, "Mango", 77⟩ ∧
      (getProductHandler (updateProductHandler dbSample ⟨[]⟩ 7 ⟨7, "Mango", 77⟩).2.1
        (updateProductHandler dbSample ⟨[]⟩ 7 ⟨7, "Mango", 77⟩).2.2.1 3 7 true).1 =
          .ok ⟨7, "Mango", 77⟩) :=
  ⟨by decide, by decide,
    spec_C9 dbSample ⟨[]⟩ 7 ⟨7, "Mango", 77⟩ 3 true (by decide) (by decide)⟩

theorem bind_unmarshal_some (o : Option Val) (q : Product)
    (h : o.bind unmarshalProduct = some q) : o = some (.vProd q) := by
  match o with
  | none => cases h
  | some (.vProd r) =>
      simp [unmarshalProduct] at h
      rw [h]
  | some (.vInt n) => simp [unmarshalProduct] at h
  | some (.vStr s) => simp [unmarshalProduct] at h

theorem rincr_eq_none (st : RedisState) (now : Int) (k : String)
    (h : rget st now k = none) : rincr st now k = (setEntry st k (.vInt 1) none, 1) := by
  unfold rincr
  rw [h]

theorem rincr_eq_int (st : RedisState) (now : Int) (k : String) (n : Int)
    (h : rget st now k = some (.vInt n)) :
    rincr st now k =
      (setEntry st k (.vInt (n + 1)) ((st.lookup k).bind (fun x => x.2)), n + 1) := by
  unfold rincr
  rw [h]

theorem rexpire_eq_some (st : RedisState) (now : Int) (k : String) (ttl : Int) (v : Val)
    (h : rget st now k = some v) :
    rexpire st now k ttl = setEntry st k v (some (now + ttl)) := by
  unfold rexpire
  rw [h]

theorem rget_setEntry_self_none (st : RedisState) (k : String) (v : Val) (now : Int) :
    rget (setEntry st k v none) now k = some v := by
  simp [rget, lookup_setEntry]

theorem rget_setEntry_self_some (st : RedisState) (k : String) (v : Val) (t now : Int) :
    rget (setEntry st k v (some t)) now k = if now < t then some v else none := by
  simp [rget, lookup_setEntry]

theorem lookup_some_rget (st : RedisState) (now : Int) (k : String) (v : Val) (t : Int)
    (hl : st.lookup k = some (v, some t)) :
    rget st now k = if now < t then some v else none := by
  simp [rget, hl]

/-- C7: a cache-backend error on the read path (a failed GET) is treated
exactly as a cache miss and never surfaced: the response with a failing
backend equals the response with a healthy backend and an empty cache, it
is the authoritative record, and for an id present in the store no fetch
— backend healthy or not — ever reports not-found. -/
theorem spec_C7 (db : DB) (st : RedisState) (now id : Int) (p : Product) (a : Bool)
    (hdb : db id = some p) :
    (getProductHandler db st now id false).1 = (getProductHandler db ⟨[]⟩ now id true).1 ∧
    (getProductHandler db st now id false).1 = .ok p ∧
    ¬ (getProductHandler db st now id a).1 = .notFound := by
  have hfalse : getProductHandler db st now id false = (.ok p, st) := by
    have hm : (if false then rget st now (redisProductKey id) else none).bind unmarshalProduct
        = none := rfl
    rw [getProductHandler_eq_miss db st now id false hm, hdb]
    simp
  have hem : (if true then rget ⟨[]⟩ now (redisProductKey id) else none).bind unmarshalProduct
      = none := by
    simp [rget, RedisState.lookup]
  have hempty : (getProductHandler db ⟨[]⟩ now id true).1 = .ok p := by
    rw [getProductHandler_eq_miss db ⟨[]⟩ now id true hem, hdb]
  refine ⟨by rw [hfalse, hempty], by rw [hfalse], ?_⟩
  cases a with
  | false =>
      rw [hfalse]
      simp
  | true =>
      match hc : (rget st now (redisProductKey id)).bind unmarshalProduct with
      | some q =>
          have hv := bind_unmarshal_some _ _ hc
          rw [getProductHandler_eq_hit db st now id q hv]
          simp
      | none =>
          have hm : (if true then rget st now (redisProductKey id) else none).bind
              unmarshalProduct = none := by simpa using hc
          rw [getProductHandler_eq_miss db st now id true hm, hdb]
          simp

theorem spec_C7_witness :
    dbSample 3 = some ⟨3, "Cherry", 200⟩ ∧
    ((getProductHandler dbSample ⟨[("product:3", .vInt 5, some 80)]⟩ 4 3 false).1 =
        (getProductHandler dbSample ⟨[]⟩ 4 3 true).1 ∧
      (getProductHandler dbSample ⟨[("product:3", .vInt 5, some 80)]⟩ 4 3 false).1 =
        .ok ⟨3, "Cherry", 200⟩ ∧
      ¬ (getProductHandler dbSample ⟨[("product:3", .vInt 5, some 80)]⟩ 4 3 true).1 =
        .notFound) :=
  ⟨by decide, spec_C7 dbSample ⟨[("product:3", .vInt 5, some 80)]⟩ 4 3
    ⟨3, "Cherry", 200⟩ true (by decide)⟩

/-- C3: on a cache hit the handler increments the hit counter (starting it
at 1 when absent), and exactly when the post-increment value reaches the
popularity threshold it extends the TTL of both the cache entry and the
counter to the full window (`now + redisProductTTL`); below the threshold
the state is exactly the post-increment state (no TTL touched).  When the
entry was created at `t0 - redisProductTTL` (so its expiration is `t0`)
and the hit happens at `now` inside that window, the refreshed expiration
`now + redisProductTTL` is at or beyond the original `t0`. -/
theorem spec_C3 (db : DB) (st : RedisState) (now id : Int) (p : Product) (c : Option Int)
    (t0 : Int)
    (hhit : rget st now (redisProductKey id) = some (.vProd p))
    (hctr : rget st now (redisProductHitsKey id) = Option.map Val.vInt c) :
    (getProductHandler db st now id true).1 = .ok p ∧
    (rincr st now (redisProductHitsKey id)).2 = c.getD 0 + 1 ∧
    (((getProductHandler db st now id true).2).lookup (redisProductHitsKey id)).map
        (fun x => x.1) = some (.vInt (c.getD 0 + 1)) ∧
    (popularThreshold ≤ c.getD 0 + 1 →
      ((getProductHandler db st now id true).2).lookup (redisProductKey id) =
        some (.vProd p, some (now + redisProductTTL)) ∧
      ((getProductHandler db st now id true).2).lookup (redisProductHitsKey id) =
        some (.vInt (c.getD 0 + 1), some (now + redisProductTTL))) ∧
    (c.getD 0 + 1 < popularThreshold →
      (getProductHandler db st now id true).2 = (rincr st now (redisProductHitsKey id)).1) ∧
    (st.lookup (redisProductKey id) = some (.vProd p, some t0) →
      t0 - redisProductTTL ≤ now → popularThreshold ≤ c.getD 0 + 1 →
      t0 ≤ now + redisProductTTL) := by
  have hKH : ¬ redisProductKey id = redisProductHitsKey id := key_ne_hitsKey id
  have hHK : ¬ redisProductHitsKey id = redisProductKey id := fun e => hKH e.symm
  rcases c with _ | n
  · have hc0 : rget st now (redisProductHitsKey id) = none := by simpa using hctr
    rw [getProductHandler_eq_hit db st now id p hhit, rincr_eq_none st now _ hc0]
    dsimp only
    have hth : ¬ popularThreshold ≤ (1 : Int) := by simp [popularThreshold]
    rw [if_neg hth]
    refine ⟨rfl, by simp, ?_, ?_, fun _ => rfl, ?_⟩
    · simp [lookup_setEntry]
    · intro h
      simp [popularThreshold] at h
    · intro _ h2 _
      simp only [redisProductTTL] at h2 ⊢
      omega
  · have hcn : rget st now (redisProductHitsKey id) = some (.vInt n) := by simpa using hctr
    obtain ⟨e0, hlk⟩ := rget_of_lookup st now _ _ hcn
    have hbind : (st.lookup (redisProductHitsKey id)).bind (fun x => x.2) = e0 := by
      rw [hlk]
      rfl
    have hlive1 : rget (setEntry st (redisProductHitsKey id) (.vInt (n + 1)) e0) now
        (redisProductHitsKey id) = some (.vInt (n + 1)) := by
      cases e0 with
      | none => exact rget_setEntry_self_none st _ _ now
      | some t =>
          rw [rget_setEntry_self_some]
          have hnt : now < t := by
            rw [lookup_some_rget st now _ _ t hlk] at hcn
            by_contra hnn
            rw [if_neg hnn] at hcn
            cases hcn
          rw [if_pos hnt]
    rw [getProductHandler_eq_hit db st now id p hhit, rincr_eq_int st now _ n hcn, hbind]
    dsimp only
    by_cases hth : popularThreshold ≤ n + 1
    · rw [if_pos hth]
      have hg1 : rget (setEntry st (redisProductHitsKey id) (.vInt (n + 1)) e0) now
          (redisProductKey id) = some (.vProd p) := by
        rw [rget_setEntry_ne _ _ _ _ _ _ hKH]
        exact hhit
      rw [rexpire_eq_some _ now _ redisProductTTL _ hg1]
      have hg2 : rget (setEntry (setEntry st (redisProductHitsKey id) (.vInt (n + 1)) e0)
          (redisProductKey id) (.vProd p) (some (now + redisProductTTL))) now
          (redisProductHitsKey id) = some (.vInt (n + 1)) := by
        rw [rget_setEntry_ne _ _ _ _ _ _ hHK]
        exact hlive1
      rw [rexpire_eq_some _ now _ redisProductTTL _ hg2]
      refine ⟨rfl, rfl, ?_, ?_, ?_, ?_⟩
      · simp [lookup_setEntry]
      · intro _
        refine ⟨?_, ?_⟩
        · simp [lookup_setEntry, hKH]
        · simp [lookup_setEntry]
      · intro hlt
        dsimp only [Option.getD] at hlt
        exact absurd hth (not_le.mpr hlt)
      · intro _ h2 _
        simp only [redisProductTTL] at h2 ⊢
        omega
    · rw [if_neg hth]
      refine ⟨rfl, rfl, ?_, ?_, fun _ => rfl, ?_⟩
      · simp [lookup_setEntry]
      · intro h
        dsimp only [Option.getD] at h
        exact absurd h hth
      · intro _ h2 _
        simp only [redisProductTTL] at h2 ⊢
        omega

theorem spec_C3_witness :
    rget ⟨[("product:1", .vProd ⟨1, "Apple", 100⟩, some 30),
        ("product:1:hits", .vInt 1, some 30)]⟩ 5 (redisProductKey 1) =
      some (.vProd ⟨1, "Apple", 100⟩) ∧
    rget ⟨[("product:1", .vProd ⟨1, "Apple", 100⟩, some 30),
        ("product:1:hits", .vInt 1, some 30)]⟩ 5 (redisProductHitsKey 1) =
      Option.map Val.vInt (some 1) ∧
    ((getProductHandler dbSample ⟨[("product:1", .vProd ⟨1, "Apple", 100⟩, some 30),
        ("product:1:hits", .vInt 1, some 30)]⟩ 5 1 true).1 = .ok ⟨1, "Apple", 100⟩ ∧
      (rincr ⟨[("product:1", .vProd ⟨1, "Apple", 100⟩, some 30),
        ("product:1:hits", .vInt 1, some 30)]⟩ 5 (redisProductHitsKey 1)).2 =
        (some (1 : Int)).getD 0 + 1 ∧
      (((getProductHandler dbSample ⟨[("product:1", .vProd ⟨1, "Apple", 100⟩, some 30),
          ("product:1:hits", .vInt 1, some 30)]⟩ 5 1 true).2).lookup
            (redisProductHitsKey 1)).map (fun x => x.1) =
        some (.vInt ((some (1 : Int)).getD 0 + 1)) ∧
      (popularThreshold ≤ (some (1 : Int)).getD 0 + 1 →
        ((getProductHandler dbSample ⟨[("product:1", .vProd ⟨1, "Apple", 100⟩, some 30),
            ("product:1:hits", .vInt 1, some 30)]⟩ 5 1 true).2).lookup (redisProductKey 1) =
          some (.vProd ⟨1, "Apple", 100⟩, some (5 + redisProductTTL)) ∧
        ((getProductHandler dbSample ⟨[("product:1", .vProd ⟨1, "Apple", 100⟩, some 30),
            ("product:1:hits", .vInt 1, some 30)]⟩ 5 1 true).2).lookup
              (redisProductHitsKey 1) =
          some (.vInt ((some (1 : Int)).getD 0 + 1), some (5 + redisProductTTL))) ∧
      ((some (1 : Int)).getD 0 + 1 < popularThreshold →
        (getProductHandler dbSample ⟨[("product:1", .vProd ⟨1, "Apple", 100⟩, some 30),
          ("product:1:hits", .vInt 1, some 30)]⟩ 5 1 true).2 =
          (rincr ⟨[("product:1", .vProd ⟨1, "Apple", 100⟩, some 30),
            ("product:1:hits", .vInt 1, some 30)]⟩ 5 (redisProductHitsKey 1)).1) ∧
      ((⟨[("product:1", .vProd ⟨1, "Apple", 100⟩, some 30),
          ("product:1:hits", .vInt 1, some 30)]⟩ : RedisState).lookup (redisProductKey 1) =
          some (.vProd ⟨1, "Apple", 100⟩, some 30) →
        30 - redisProductTTL ≤ 5 → popularThreshold ≤ (some (1 : Int)).getD 0 + 1 →
        (30 : Int) ≤ 5 + redisProductTTL)) :=
  ⟨by decide, by decide,
    spec_C3 dbSample ⟨[("product:1", .vProd ⟨1, "Apple", 100⟩, some 30),
      ("product:1:hits", .vInt 1, some 30)]⟩ 5 1 ⟨1, "Apple", 100⟩ (some 1) 30
      (by decide) (by decide)⟩

theorem clean_fold_lookup (now : Int) (ks : List String) (s : RedisState)
    (hnd : ks.Nodup) (k : String) :
    (ks.foldl (fun s2 k2 => if rttl s2 now k2 ≤ 0 ∨ rttl s2 now k2 = -1 then rdel s2 k2
      else s2) s).lookup k =
      if k ∈ ks ∧ (rttl s now k ≤ 0 ∨ rttl s now k = -1) then none else s.lookup k := by
  induction ks generalizing s with
  | nil => simp
  | cons k0 ks ih =>
      rcases List.nodup_cons.mp hnd with ⟨hk0, hnd2⟩
      rw [List.foldl_cons]
      rw [ih (if rttl s now k0 ≤ 0 ∨ rttl s now k0 = -1 then rdel s k0 else s) hnd2]
      by_cases hk : k = k0
      · subst hk
        have hnmem : ¬ (k ∈ ks ∧ (rttl (if rttl s now k ≤ 0 ∨ rttl s now k = -1 then rdel s k
            else s) now k ≤ 0 ∨ rttl (if rttl s now k ≤ 0 ∨ rttl s now k = -1 then rdel s k
            else s) now k = -1)) := fun hc => hk0 hc.1
        rw [if_neg hnmem]
        by_cases hcond : rttl s now k ≤ 0 ∨ rttl s now k = -1
        · rw [if_pos hcond, if_pos ⟨List.mem_cons_self k ks, hcond⟩, lookup_rdel, if_pos rfl]
        · rw [if_neg hcond, if_neg (fun hc => hcond hc.2)]
      · have hl : (if rttl s now k0 ≤ 0 ∨ rttl s now k0 = -1 then rdel s k0 else s).lookup k
            = s.lookup k := by
          split
          · rw [lookup_rdel, if_neg hk]
          · rfl
        have ht : rttl (if rttl s now k0 ≤ 0 ∨ rttl s now k0 = -1 then rdel s k0 else s) now k
            = rttl s now k := by
          split
          · rw [rttl_rdel, if_neg hk]
          · rfl
        rw [hl, ht]
        simp only [List.mem_cons, hk, false_or]

theorem cleanStale_lookup (st : RedisState) (now : Int) (k : String) (h : keysNodup st) :
    (cleanStaleProductKeys st now).lookup k =
      if strStarts k "product:" = true ∧ (rttl st now k ≤ 0 ∨ rttl st now k = -1) then none
      else st.lookup k := by
  have hnd : (scanProductKeys st).Nodup := List.Nodup.filter _ h
  unfold cleanStaleProductKeys
  rw [clean_fold_lookup now (scanProductKeys st) st hnd k]
  by_cases hmem : k ∈ scanProductKeys st
  · have hpfx : strStarts k "product:" = true := (List.mem_filter.mp hmem).2
    by_cases hcond : rttl st now k ≤ 0 ∨ rttl st now k = -1
    · rw [if_pos ⟨hmem, hcond⟩, if_pos ⟨hpfx, hcond⟩]
    · rw [if_neg (fun hc => hcond hc.2), if_neg (fun hc => hcond hc.2)]
  · rw [if_neg (fun hc => hmem hc.1)]
    by_cases hpfx : strStarts k "product:" = true
    · have hnk : ¬ k ∈ st.entries.map (fun x => x.1) :=
        fun hm => hmem (List.mem_filter.mpr ⟨hm, hpfx⟩)
      have hnone := lookup_not_mem st k hnk
      by_cases hcond : rttl st now k ≤ 0 ∨ rttl st now k = -1
      · rw [if_pos ⟨hpfx, hcond⟩, hnone]
      · rw [if_neg (fun hc => hcond hc.2)]
    · rw [if_neg (fun hc => hpfx hc.1)]

/-- C5: one sweeper pass deletes exactly the keys under the `product:`
prefix whose TTL query reports no expiration (-1) or a non-positive
remaining time, and leaves every other key — positive remaining TTL or
outside the prefix — exactly as it was. -/
theorem spec_C5 (st : RedisState) (now : Int) (k : String) (h : keysNodup st) :
    (cleanStaleProductKeys st now).lookup k =
      if strStarts k "product:" = true ∧ (rttl st now k ≤ 0 ∨ rttl st now k = -1) then none
      else st.lookup k :=
  cleanStale_lookup st now k h

theorem spec_C5_witness :
    keysNodup ⟨[("product:1", .vProd ⟨1, "a", 1⟩, some 100),
      ("product:2", .vStr "x", none), ("product:3", .vInt 4, some 40),
      ("other:1", .vStr "y", none)]⟩ ∧
    (cleanStaleProductKeys ⟨[("product:1", .vProd ⟨1, "a", 1⟩, some 100),
        ("product:2", .vStr "x", none), ("product:3", .vInt 4, some 40),
        ("other:1", .vStr "y", none)]⟩ 50).lookup "product:3" =
      if strStarts "product:3" "product:" = true ∧
          (rttl ⟨[("product:1", .vProd ⟨1, "a", 1⟩, some 100),
            ("product:2", .vStr "x", none), ("product:3", .vInt 4, some 40),
            ("other:1", .vStr "y", none)]⟩ 50 "product:3" ≤ 0 ∨
          rttl ⟨[("product:1", .vProd ⟨1, "a", 1⟩, some 100),
            ("product:2", .vStr "x", none), ("product:3", .vInt 4, some 40),
            ("other:1", .vStr "y", none)]⟩ 50 "product:3" = -1) then none
      else (⟨[("product:1", .vProd ⟨1, "a", 1⟩, some 100),
        ("product:2", .vStr "x", none), ("product:3", .vInt 4, some 40),
        ("other:1", .vStr "y", none)]⟩ : RedisState).lookup "product:3" :=
  ⟨by decide,
    spec_C5 ⟨[("product:1", .vProd ⟨1, "a", 1⟩, some 100),
      ("product:2", .vStr "x", none), ("product:3", .vInt 4, some 40),
      ("other:1", .vStr "y", none)]⟩ 50 "product:3" (by decide)⟩

/-- C10: on a cache hit while the hit-counter key is absent, with the
post-increment count (1) below the threshold, the counter is recreated
persistent — value 1, no TTL.  It stays until either a later hit reaches
the threshold and extends its TTL (a second hit at any `now2` while the
entry is live puts the counter at 2 with expiration `now2 +
redisProductTTL`), or a sweeper pass deletes it as a no-TTL key. -/
theorem spec_C10 (db : DB) (st : RedisState) (now id : Int) (p : Product)
    (nowSweep now2 : Int)
    (hhit : rget st now (redisProductKey id) = some (.vProd p))
    (hctr : rget st now (redisProductHitsKey id) = none)
    (hnd : keysNodup (getProductHandler db st now id true).2)
    (hlive2 : rget st now2 (redisProductKey id) = some (.vProd p)) :
    ((getProductHandler db st now id true).2).lookup (redisProductHitsKey id) =
      some (.vInt 1, none) ∧
    (cleanStaleProductKeys (getProductHandler db st now id true).2 nowSweep).lookup
      (redisProductHitsKey id) = none ∧
    ((getProductHandler db (getProductHandler db st now id true).2 now2 id true).2).lookup
      (redisProductHitsKey id) = some (.vInt 2, some (now2 + redisProductTTL)) := by
  have hKH : ¬ redisProductKey id = redisProductHitsKey id := key_ne_hitsKey id
  have hHK : ¬ redisProductHitsKey id = redisProductKey id := fun e => hKH e.symm
  have hth1 : ¬ popularThreshold ≤ (1 : Int) := by simp [popularThreshold]
  have hfirst : (getProductHandler db st now id true).2 =
      setEntry st (redisProductHitsKey id) (.vInt 1) none := by
    rw [getProductHandler_eq_hit db st now id p hhit, rincr_eq_none st now _ hctr]
    dsimp only
    rw [if_neg hth1]
  refine ⟨?_, ?_, ?_⟩
  · rw [hfirst, lookup_setEntry, if_pos rfl]
  · rw [cleanStale_lookup _ nowSweep _ hnd]
    have httl : rttl (getProductHandler db st now id true).2 nowSweep
        (redisProductHitsKey id) = -1 := by
      rw [hfirst]
      simp [rttl, lookup_setEntry]
    rw [if_pos ⟨hitsKey_starts id, Or.inr httl⟩]
  · have hg1 : rget (getProductHandler db st now id true).2 now2 (redisProductKey id) =
        some (.vProd p) := by
      rw [hfirst, rget_setEntry_ne _ _ _ _ _ _ hKH]
      exact hlive2
    have hg2 : rget (getProductHandler db st now id true).2 now2 (redisProductHitsKey id) =
        some (.vInt 1) := by
      rw [hfirst]
      exact rget_setEntry_self_none st _ _ now2
    have hbind : ((getProductHandler db st now id true).2.lookup
        (redisProductHitsKey id)).bind (fun x => x.2) = none := by
      rw [hfirst, lookup_setEntry, if_pos rfl]
      rfl
    rw [getProductHandler_eq_hit db _ now2 id p hg1, rincr_eq_int _ now2 _ 1 hg2, hbind]
    dsimp only
    have hth2 : popularThreshold ≤ (1 : Int) + 1 := by simp [popularThreshold]
    rw [if_pos hth2]
    have hg3 : rget (setEntry (getProductHandler db st now id true).2
        (redisProductHitsKey id) (.vInt (1 + 1)) none) now2 (redisProductKey id) =
        some (.vProd p) := by
      rw [rget_setEntry_ne _ _ _ _ _ _ hKH]
      exact hg1
    rw [rexpire_eq_some _ now2 _ redisProductTTL _ hg3]
    have hg4 : rget (setEntry (setEntry (getProductHandler db st now id true).2
        (redisProductHitsKey id) (.vInt (1 + 1)) none) (redisProductKey id) (.vProd p)
        (some (now2 + redisProductTTL))) now2 (redisProductHitsKey id) =
        some (.vInt (1 + 1)) := by
      rw [rget_setEntry_ne _ _ _ _ _ _ hHK]
      exact rget_setEntry_self_none _ _ _ now2
    rw [rexpire_eq_some _ now2 _ redisProductTTL _ hg4]
    rw [lookup_setEntry, if_pos rfl]
    norm_num

theorem spec_C10_witness :
    rget ⟨[("product:1", .vProd ⟨1, "Apple", 100⟩, some 30)]⟩ 2 (redisProductKey 1) =
      some (.vProd ⟨1, "Apple", 100⟩) ∧
    rget ⟨[("product:1", .vProd ⟨1, "Apple", 100⟩, some 30)]⟩ 2 (redisProductHitsKey 1) =
      none ∧
    keysNodup (getProductHandler dbSample
      ⟨[("product:1", .vProd ⟨1, "Apple", 100⟩, some 30)]⟩ 2 1 true).2 ∧
    rget ⟨[("product:1", .vProd ⟨1, "Apple", 100⟩, some 30)]⟩ 9 (redisProductKey 1) =
      some (.vProd ⟨1, "Apple", 100⟩) ∧
    (((getProductHandler dbSample ⟨[("product:1", .vProd ⟨1, "Apple", 100⟩, some 30)]⟩
        2 1 true).2).lookup (redisProductHitsKey 1) = some (.vInt 1, none) ∧
      (cleanStaleProductKeys (getProductHandler dbSample
        ⟨[("product:1", .vProd ⟨1, "Apple", 100⟩, some 30)]⟩ 2 1 true).2 100).lookup
          (redisProductHitsKey 1) = none ∧
      ((getProductHandler dbSample (getProductHandler dbSample
        ⟨[("product:1", .vProd ⟨1, "Apple", 100⟩, some 30)]⟩ 2 1 true).2 9 1 true).2).lookup
          (redisProductHitsKey 1) = some (.vInt 2, some (9 + redisProductTTL))) :=
  ⟨by decide, by decide, by decide, by decide,
    spec_C10 dbSample ⟨[("product:1", .vProd ⟨1, "Apple", 100⟩, some 30)]⟩ 2 1
      ⟨1, "Apple", 100⟩ 100 9 (by decide) (by decide) (by decide) (by decide)⟩

theorem lookup_rset (st : RedisState) (k : String) (v : Val) (ttl now : Int) (k2 : String) :
    (rset st k v ttl now).lookup k2 =
      if k2 = k then some (v, some (now + ttl)) else st.lookup k2 :=
  lookup_setEntry st k v (some (now + ttl)) k2

theorem entryConsistent_set_hits (db : DB) (st : RedisState) (id : Int) (v : Val)
    (e : Option Int) (hc : entryConsistent db st id) :
    entryConsistent db (setEntry st (redisProductHitsKey id) v e) id := by
  intro q e2 h
  rw [lookup_setEntry, if_neg (key_ne_hitsKey id)] at h
  exact hc q e2 h

theorem entryConsistent_rincr (db : DB) (st : RedisState) (id now : Int)
    (hc : entryConsistent db st id) :
    entryConsistent db (rincr st now (redisProductHitsKey id)).1 id := by
  unfold rincr
  split
  · exact entryConsistent_set_hits db st id _ _ hc
  · exact hc
  · exact entryConsistent_set_hits db st id _ _ hc

theorem entryConsistent_rexpire_key (db : DB) (st : RedisState) (id now ttl : Int)
    (hc : entryConsistent db st id) :
    entryConsistent db (rexpire st now (redisProductKey id) ttl) id := by
  unfold rexpire
  match hg : rget st now (redisProductKey id) with
  | some v =>
      intro q e h
      rw [lookup_setEntry, if_pos rfl] at h
      obtain ⟨e0, hl⟩ := rget_of_lookup st now _ _ hg
      have hv : v = .vProd q := by
        have := congrArg (fun o => Option.map (fun x => x.1) o) h
        simpa using this
      rw [hv] at hl
      exact hc q e0 hl
  | none => exact hc

theorem entryConsistent_rexpire_hits (db : DB) (st : RedisState) (id now ttl : Int)
    (hc : entryConsistent db st id) :
    entryConsistent db (rexpire st now (redisProductHitsKey id) ttl) id := by
  unfold rexpire
  match hg : rget st now (redisProductHitsKey id) with
  | some v =>
      intro q e h
      rw [lookup_setEntry, if_neg (key_ne_hitsKey id)] at h
      exact hc q e h
  | none => exact hc

theorem fetch_false_state (db : DB) (st : RedisState) (now id : Int) :
    (getProductHandler db st now id false).2 = st := by
  have hm : (if false then rget st now (redisProductKey id) else none).bind unmarshalProduct
      = none := rfl
  rw [getProductHandler_eq_miss db st now id false hm]
  cases db id <;> rfl

theorem fetch_ok (db : DB) (st : RedisState) (id : Int) (p : Product)
    (hc : entryConsistent db st id) (hdb : db id = some p) (now : Int) (b : Bool) :
    (getProductHandler db st now id b).1 = .ok p := by
  cases b with
  | false =>
      have hm : (if false then rget st now (redisProductKey id) else none).bind
          unmarshalProduct = none := rfl
      rw [getProductHandler_eq_miss db st now id false hm, hdb]
  | true =>
      match hv : (rget st now (redisProductKey id)).bind unmarshalProduct with
      | some q =>
          have hg := bind_unmarshal_some _ _ hv
          obtain ⟨e, hl⟩ := rget_of_lookup st now _ _ hg
          have hq : db id = some q := hc q e hl
          rw [hdb] at hq
          injection hq with hpq
          rw [getProductHandler_eq_hit db st now id q hg, hpq]
      | none =>
          have hm : (if true then rget st now (redisProductKey id) else none).bind
              unmarshalProduct = none := by simpa using hv
          rw [getProductHandler_eq_miss db st now id true hm, hdb]

theorem fetch_preserves (db : DB) (st : RedisState) (id : Int)
    (hc : entryConsistent db st id) (now : Int) (b : Bool) :
    entryConsistent db (getProductHandler db st now id b).2 id := by
  cases b with
  | false => rw [fetch_false_state]; exact hc
  | true =>
      match hv : (rget st now (redisProductKey id)).bind unmarshalProduct with
      | some q =>
          have hg := bind_unmarshal_some _ _ hv
          rw [getProductHandler_eq_hit db st now id q hg]
          dsimp only
          split
          · exact entryConsistent_rexpire_hits db _ id now redisProductTTL
              (entryConsistent_rexpire_key db _ id now redisProductTTL
                (entryConsistent_rincr db st id now hc))
          · exact entryConsistent_rincr db st id now hc
      | none =>
          have hm : (if true then rget st now (redisProductKey id) else none).bind
              unmarshalProduct = none := by simpa using hv
          rw [getProductHandler_eq_miss db st now id true hm]
          match hdb : db id with
          | none => exact hc
          | some dbq =>
              intro q2 e h
              dsimp only at h
              rw [if_pos rfl] at h
              rw [lookup_rset, if_neg (key_ne_hitsKey id), lookup_rset, if_pos rfl] at h
              have hq : Val.vProd dbq = .vProd q2 := by
                have := congrArg (fun o => Option.map (fun x => x.1) o) h
                simpa using this
              injection hq with hq2
              rw [← hq2]
              exact hdb

/-- C8: for an identifier present in the authoritative store, repeated
fetches with no intervening update all return identical attributes (the
authoritative record), whether each one is served from the cache or from
the store, and whether or not the cache backend is healthy — given the
read-path invariant that any cached product for that id agrees with the
store (which holds in every reachable state). -/
theorem spec_C8 (db : DB) (st : RedisState) (id : Int) (p : Product)
    (l : List (Int × Bool)) (hc : entryConsistent db st id) (hdb : db id = some p) :
    (fetchSeq db st id l).1 = List.replicate l.length (.ok p) := by
  induction l generalizing st with
  | nil => rfl
  | cons q rest ih =>
      simp only [fetchSeq]
      rw [List.length_cons, List.replicate_succ]
      rw [fetch_ok db st id p hc hdb q.1 q.2,
        ih _ (fetch_preserves db st id hc q.1 q.2)]

theorem spec_C8_witness :
    entryConsistent dbSample ⟨[]⟩ 1 ∧
    dbSample 1 = some ⟨1, "Apple", 100⟩ ∧
    (fetchSeq dbSample ⟨[]⟩ 1 [(0, true), (5, true), (9, false), (11, true)]).1 =
      List.replicate ([(0, true), (5, true), (9, false), (11, true)] :
        List (Int × Bool)).length (.ok ⟨1, "Apple", 100⟩) :=
  ⟨fun q e h => by simp [RedisState.lookup] at h, by decide,
    spec_C8 dbSample ⟨[]⟩ 1 ⟨1, "Apple", 100⟩ [(0, true), (5, true), (9, false), (11, true)]
      (fun q e h => by simp [RedisState.lookup] at h) (by decide)⟩

end GoRedisCache
